import Mathlib

/-!
Verification of `SkydomeCapture.py` (MetaWorldsSkydomeCapture).

The script drives Blender: it renders six 90°-FOV axis-aligned views from the
origin into square tiles and composites them into one horizontal strip via
compositor nodes.  We shallowly embed the script's data and control flow:
numeric configuration as `Nat`/`Int`/`ℝ` constants, the compositor node graph
built by `compose_with_nodes` as an explicit tree of nodes and links, the
linear main body as an action trace over mutable render settings, and the
error-handling / cleanup passes as explicit state transformers.  External
APIs (`bpy.path.abspath`, `os.makedirs`, the renderer) are parameters or
oracles; everything the script itself computes is embedded from the source.
-/

namespace Skydome

/-! ### Configuration constants (SkydomeCapture.py lines 8-16) -/

def output_dir : String := "//skydome_output/"

def output_filename : String := "horizontal_strip.png"

/-- `camera_location = (0, 0, 0)` (line 11). -/
def camera_location : ℝ × ℝ × ℝ := (0, 0, 0)

def resolution_x : Nat := 6144

def resolution_y : Nat := 1024

def tile_size : Nat := 1024

/-- `num_tiles = resolution_x // tile_size` (line 133). -/
def num_tiles : Nat := resolution_x / tile_size

/-! ### Compositor node graph built by `compose_with_nodes` (lines 230-279)

Nodes are numbered by creation order (the Composite node, created first, is
node 0).  Sockets are numbered as the code addresses them: the Translate
node's input 0 is Image, 1 is X, 2 is Y; the AlphaOver node's input 0 is Fac,
1 is the lower image, 2 is the upper image; the Composite node's input 0 is
Image. -/

inductive NodeType
  | composite
  | image
  | translate
  | alphaOver
  deriving DecidableEq, Repr

structure CompNode where
  nid : Nat
  ntype : NodeType
  imgPath : String
  xOffset : Int
  yOffset : Int
  deriving DecidableEq, Repr

structure CompLink where
  fromNode : Nat
  toNode : Nat
  toSocket : Nat
  deriving DecidableEq, Repr

structure CompTree where
  nodes : List CompNode
  links : List CompLink
  deriving DecidableEq, Repr

structure ComposeState where
  nodes : List CompNode
  links : List CompLink
  nextId : Nat
  prev : Option Nat
  deriving DecidableEq, Repr

/-- One iteration of the `for i, img_path in enumerate(image_paths)` loop
(lines 242-272): create an Image node and a Translate node with
`X = (i * tile_size) - 2560`, link Image→Translate, and either start the
chain (first tile) or alpha-over the translated tile onto the chain so far. -/
def composeStep (ts : Int) (i : Nat) (img_path : String) (s : ComposeState) :
    ComposeState :=
  let img_node : CompNode := ⟨s.nextId, .image, img_path, 0, 0⟩
  let trans_node : CompNode := ⟨s.nextId + 1, .translate, "", (i : Int) * ts - 2560, 0⟩
  let links1 := s.links ++ [⟨img_node.nid, trans_node.nid, 0⟩]
  match s.prev with
  | none =>
      ⟨s.nodes ++ [img_node, trans_node], links1, s.nextId + 2, some trans_node.nid⟩
  | some p =>
      let alpha_node : CompNode := ⟨s.nextId + 2, .alphaOver, "", 0, 0⟩
      ⟨s.nodes ++ [img_node, trans_node, alpha_node],
       links1 ++ [⟨p, alpha_node.nid, 1⟩, ⟨trans_node.nid, alpha_node.nid, 2⟩],
       s.nextId + 3, some alpha_node.nid⟩

/-- The whole loop, indexed from `i`. -/
def composeLoop (ts : Int) : Nat → List String → ComposeState → ComposeState
  | _, [], s => s
  | i, p :: ps, s => composeLoop ts (i + 1) ps (composeStep ts i p s)

/-- `compose_with_nodes` (lines 230-279) as a node-graph builder: Composite
node first, then the loop over `image_paths`, then the final link from the
chain output to the Composite node.  With an empty `image_paths` the code
dereferences `prev_node = None` (AttributeError), which we model as `none`. -/
def compose_with_nodes (image_paths : List String) (ts : Int) : Option CompTree :=
  let init : ComposeState := ⟨[⟨0, .composite, "", 0, 0⟩], [], 1, none⟩
  let s := composeLoop ts 0 image_paths init
  match s.prev with
  | none => none
  | some p => some ⟨s.nodes, s.links ++ [⟨p, 0, 0⟩]⟩

/-- X offsets of the Translate nodes, in creation order (tile order). -/
def translateXOffsets (t : CompTree) : List Int :=
  (t.nodes.filter (fun n => n.ntype == .translate)).map (fun n => n.xOffset)

def composeOffsets (paths : List String) (ts : Int) : List Int :=
  match compose_with_nodes paths ts with
  | some t => translateXOffsets t
  | none => []

def ntypeCount (t : CompTree) (ty : NodeType) : Nat :=
  (t.nodes.filter (fun n => n.ntype == ty)).length

/-! Closed form of the graph that the loop builds, used to state the chain
structure: tile 0 contributes Image node 1 and Translate node 2; tile `i ≥ 1`
contributes Image node `3i`, Translate node `3i+1` and AlphaOver node `3i+2`;
the chain output after tile `i` is node `chainId i`. -/

def chainId (i : Nat) : Nat := if i = 0 then 2 else 3 * i + 2

def blockNodes (ts : Int) (p : String) (i : Nat) : List CompNode :=
  if i = 0 then
    [⟨1, .image, p, 0, 0⟩, ⟨2, .translate, "", (i : Int) * ts - 2560, 0⟩]
  else
    [⟨3 * i, .image, p, 0, 0⟩, ⟨3 * i + 1, .translate, "", (i : Int) * ts - 2560, 0⟩,
     ⟨3 * i + 2, .alphaOver, "", 0, 0⟩]

def blockLinks (i : Nat) : List CompLink :=
  if i = 0 then [⟨1, 2, 0⟩]
  else [⟨3 * i, 3 * i + 1, 0⟩, ⟨chainId (i - 1), 3 * i + 2, 1⟩,
        ⟨3 * i + 1, 3 * i + 2, 2⟩]

def expectedBlocks (ts : Int) : Nat → List String → List CompNode × List CompLink
  | _, [] => ([], [])
  | i, p :: ps =>
    let rest := expectedBlocks ts (i + 1) ps
    (blockNodes ts p i ++ rest.1, blockLinks i ++ rest.2)

/-- The node graph `compose_with_nodes` is expected to build for a non-empty
path list: the Composite node, the per-tile blocks, and the final link from
the last chain output into the Composite node's Image input. -/
def expectedTree (paths : List String) (ts : Int) : CompTree :=
  ⟨⟨0, .composite, "", 0, 0⟩ :: (expectedBlocks ts 0 paths).1,
   (expectedBlocks ts 0 paths).2 ++ [⟨chainId (paths.length - 1), 0, 0⟩]⟩

lemma composeStep_none (ts : Int) (i : Nat) (p : String) (ns ls m) :
    composeStep ts i p ⟨ns, ls, m, none⟩ =
      ⟨ns ++ [⟨m, .image, p, 0, 0⟩, ⟨m + 1, .translate, "", (i : Int) * ts - 2560, 0⟩],
       ls ++ [⟨m, m + 1, 0⟩], m + 2, some (m + 1)⟩ := by
  simp [composeStep]

lemma composeStep_some (ts : Int) (i : Nat) (p : String) (ns ls m q) :
    composeStep ts i p ⟨ns, ls, m, some q⟩ =
      ⟨ns ++ [⟨m, .image, p, 0, 0⟩, ⟨m + 1, .translate, "", (i : Int) * ts - 2560, 0⟩,
              ⟨m + 2, .alphaOver, "", 0, 0⟩],
       ls ++ [⟨m, m + 1, 0⟩, ⟨q, m + 2, 1⟩, ⟨m + 1, m + 2, 2⟩], m + 3, some (m + 2)⟩ := by
  simp [composeStep]

/-- Closed form for the loop when it starts past the first tile: from a state
whose chain output is `chainId (i-1)` and whose next id is `3*i`, the loop
appends exactly the expected blocks. -/
lemma composeLoop_closed (ts : Int) :
    ∀ (ps : List String) (i : Nat), 1 ≤ i → ∀ (ns : List CompNode) (ls : List CompLink),
      composeLoop ts i ps ⟨ns, ls, 3 * i, some (chainId (i - 1))⟩ =
        ⟨ns ++ (expectedBlocks ts i ps).1, ls ++ (expectedBlocks ts i ps).2,
         3 * (i + ps.length), some (chainId (i + ps.length - 1))⟩ := by
  intro ps
  induction ps with
  | nil =>
      intro i hi ns ls
      simp [composeLoop, expectedBlocks]
  | cons p ps ih =>
      intro i hi ns ls
      have hchain : chainId i = 3 * i + 2 := by
        have : i ≠ 0 := by omega
        simp [chainId, this]
      have hbn : blockNodes ts p i =
          [⟨3 * i, .image, p, 0, 0⟩, ⟨3 * i + 1, .translate, "", (i : Int) * ts - 2560, 0⟩,
           ⟨3 * i + 2, .alphaOver, "", 0, 0⟩] := by
        have : i ≠ 0 := by omega
        simp [blockNodes, this]
      have hbl : blockLinks i =
          [⟨3 * i, 3 * i + 1, 0⟩, ⟨chainId (i - 1), 3 * i + 2, 1⟩,
           ⟨3 * i + 1, 3 * i + 2, 2⟩] := by
        have : i ≠ 0 := by omega
        simp [blockLinks, this]
      show composeLoop ts (i + 1) ps
          (composeStep ts i p ⟨ns, ls, 3 * i, some (chainId (i - 1))⟩) = _
      rw [composeStep_some]
      have hc' : chainId (i + 1 - 1) = 3 * i + 2 := by
        rw [Nat.add_sub_cancel, hchain]
      have happ := ih (i + 1) (by omega)
        (ns ++ [⟨3 * i, .image, p, 0, 0⟩,
                ⟨3 * i + 1, .translate, "", (i : Int) * ts - 2560, 0⟩,
                ⟨3 * i + 2, .alphaOver, "", 0, 0⟩])
        (ls ++ [⟨3 * i, 3 * i + 1, 0⟩, ⟨chainId (i - 1), 3 * i + 2, 1⟩,
                ⟨3 * i + 1, 3 * i + 2, 2⟩])
      rw [hc'] at happ
      rw [(by ring : 3 * i + 3 = 3 * (i + 1))]
      rw [happ]
      simp only [ComposeState.mk.injEq]
      refine ⟨?_, ?_, ?_, ?_⟩
      · rw [show (expectedBlocks ts i (p :: ps)).1 =
            blockNodes ts p i ++ (expectedBlocks ts (i + 1) ps).1 from rfl, hbn,
          List.append_assoc]
      · rw [show (expectedBlocks ts i (p :: ps)).2 =
            blockLinks i ++ (expectedBlocks ts (i + 1) ps).2 from rfl, hbl,
          List.append_assoc]
      · simp only [List.length_cons]
        ring
      · congr 2
        simp only [List.length_cons]
        omega

/-- For a non-empty list of image paths, `compose_with_nodes` builds exactly
the expected tree. -/
theorem compose_eq_expected (paths : List String) (ts : Int) (h : paths ≠ []) :
    compose_with_nodes paths ts = some (expectedTree paths ts) := by
  match paths, h with
  | p :: ps, _ =>
    have hloop : composeLoop ts 0 (p :: ps) ⟨[⟨0, .composite, "", 0, 0⟩], [], 1, none⟩ =
        ⟨[⟨0, .composite, "", 0, 0⟩, ⟨1, .image, p, 0, 0⟩,
          ⟨2, .translate, "", ((0 : Nat) : Int) * ts - 2560, 0⟩] ++
           (expectedBlocks ts 1 ps).1,
         [⟨1, 2, 0⟩] ++ (expectedBlocks ts 1 ps).2,
         3 * (1 + ps.length), some (chainId (1 + ps.length - 1))⟩ := by
      show composeLoop ts 1 ps
          (composeStep ts 0 p ⟨[⟨0, .composite, "", 0, 0⟩], [], 1, none⟩) = _
      rw [composeStep_none]
      have h1 : (1 : Nat) + 1 = 2 := rfl
      have h2 : some (1 + 1) = some (chainId (1 - 1)) := by simp [chainId]
      have h3 : (1 : Nat) + 2 = 3 * 1 := rfl
      rw [h2, h3, composeLoop_closed ts ps 1 (by omega)]
      rfl
    simp only [compose_with_nodes, hloop]
    have hchain : chainId (1 + ps.length - 1) = chainId ((p :: ps).length - 1) := by
      congr 1
      simp
    simp [expectedTree, hchain]
    rw [show expectedBlocks ts 0 (p :: ps) =
        (blockNodes ts p 0 ++ (expectedBlocks ts 1 ps).1,
         blockLinks 0 ++ (expectedBlocks ts 1 ps).2) from rfl]
    simp [blockNodes, blockLinks]

/-- The tiles of `expectedBlocks` starting at index `i` carry Translate X
offsets `(i+k) * ts - 2560` in order. -/
lemma expectedBlocks_offsets (ts : Int) :
    ∀ (ps : List String) (i : Nat),
      ((expectedBlocks ts i ps).1.filter (fun n => n.ntype == .translate)).map
          (fun n => n.xOffset) =
        (List.range ps.length).map (fun k => ((i + k : Nat) : Int) * ts - 2560) := by
  intro ps
  induction ps with
  | nil => intro i; simp [expectedBlocks]
  | cons p ps ih =>
      intro i
      have hpt : ∀ k : Nat, ((i + (k + 1) : Nat) : Int) * ts - 2560 =
          ((i + 1 + k : Nat) : Int) * ts - 2560 := by
        intro k
        congr 2
        omega
      have hone : (List.range (ps.length + 1)).map
            (fun k => ((i + k : Nat) : Int) * ts - 2560) =
          ((i : Int) * ts - 2560) ::
            (List.range ps.length).map (fun k => (((i + 1) + k : Nat) : Int) * ts - 2560) := by
        rw [List.range_succ_eq_map]
        simp only [List.map_cons, List.map_map, Function.comp]
        refine congrArg₂ _ (by simp) ?_
        refine List.map_congr_left ?_
        intro k _
        exact hpt k
      rw [List.length_cons, hone]
      by_cases hi : i = 0 <;>
        simp [expectedBlocks, blockNodes, hi, List.filter_append, ih]

lemma expectedBlocks_count (ts : Int) (ty : NodeType) :
    ∀ (ps : List String) (i : Nat),
      ((expectedBlocks ts i ps).1.filter (fun n => n.ntype == ty)).length =
        ps.length * (if ty == .image || ty == .translate then 1 else 0) +
          (if ty == .alphaOver then
             (if i = 0 then ps.length - 1 else ps.length) else 0) := by
  intro ps
  induction ps with
  | nil => intro i; simp [expectedBlocks]
  | cons p ps ih =>
      intro i
      have step : ((blockNodes ts p i).filter (fun n => n.ntype == ty)).length =
          (if ty == .image || ty == .translate then 1 else 0) +
            (if ty == .alphaOver then (if i = 0 then 0 else 1) else 0) := by
        by_cases hi : i = 0 <;> cases ty <;> simp [blockNodes, hi]
      have hrec := ih (i + 1)
      simp only [expectedBlocks, List.filter_append, List.length_append, step, hrec,
        List.length_cons]
      by_cases hi : i = 0 <;> cases ty <;> simp [hi] <;> omega

/-- C1 (counterexample): the claim says the X offset of the Translate node for
tile `i` is `i * tile_size - resolution_x / 2 = i * 1024 - 3072`.  Running
`compose_with_nodes` on the six tile files with the configured tile size, the
Translate node for tile 0 gets X offset `-2560`, not `0 * 1024 - 3072 = -3072`. -/
theorem tile_x_offset_not_half_resolution :
    (composeOffsets ["view_X+.png", "view_X-.png", "view_Y+.png", "view_Y-.png",
        "view_Z+.png", "view_Z-.png"] (tile_size : Int)).get? 0 = some (-2560) ∧
      ¬ ((-2560 : Int) = (0 : Int) * (tile_size : Int) - ((resolution_x : Int) / 2)) := by
  decide

/-- C1 (amended): the X offset applied to tile `i` by the compositor equals
`i * tile_size - 2560` (i.e. `i * tile_size - (resolution_x - tile_size) / 2`
under the configured constants), not `i * tile_size - resolution_x / 2`. -/
theorem tile_x_offset_formula (paths : List String) (ts : Int) :
    composeOffsets paths ts =
      (List.range paths.length).map (fun i : Nat => (i : Int) * ts - 2560) := by
  cases paths with
  | nil => rfl
  | cons p ps =>
      rw [composeOffsets, compose_eq_expected (p :: ps) ts (by simp)]
      show translateXOffsets (expectedTree (p :: ps) ts) = _
      rw [translateXOffsets, expectedTree]
      rw [List.filter_cons_of_neg (by decide)]
      simpa using expectedBlocks_offsets ts (p :: ps) 0

/-- C3: for a non-empty list of `n` image paths, `compose_with_nodes` builds a
graph with one Composite node, `n` Image nodes, `n` Translate nodes and `n-1`
AlphaOver nodes, wired as the chain described by `expectedTree`: tile 0's
Translate output starts the chain, each later translated tile is alpha-overlaid
(lower input = chain so far, upper input = the new tile), and the final chain
output is linked to the Composite node's Image input. -/
theorem compose_node_graph_structure (paths : List String) (ts : Int)
    (h : paths ≠ []) :
    ∃ t, compose_with_nodes paths ts = some t ∧
      ntypeCount t .composite = 1 ∧
      ntypeCount t .image = paths.length ∧
      ntypeCount t .translate = paths.length ∧
      ntypeCount t .alphaOver = paths.length - 1 ∧
      t = expectedTree paths ts := by
  refine ⟨expectedTree paths ts, compose_eq_expected paths ts h, ?_, ?_, ?_, ?_, rfl⟩
  · have h0 := expectedBlocks_count ts .composite paths 0
    simp at h0
    simpa [ntypeCount, expectedTree, List.filter_cons] using h0
  · have h0 := expectedBlocks_count ts .image paths 0
    simp at h0
    simpa [ntypeCount, expectedTree, List.filter_cons] using h0
  · have h0 := expectedBlocks_count ts .translate paths 0
    simp at h0
    simpa [ntypeCount, expectedTree, List.filter_cons] using h0
  · have h0 := expectedBlocks_count ts .alphaOver paths 0
    simp at h0
    simpa [ntypeCount, expectedTree, List.filter_cons] using h0

/-- Witness for C3 at a concrete input. -/
theorem compose_node_graph_structure_witness :
    ∃ t, compose_with_nodes ["a", "b", "c"] 1024 = some t ∧
      ntypeCount t .composite = 1 ∧
      ntypeCount t .image = (["a", "b", "c"] : List String).length ∧
      ntypeCount t .translate = (["a", "b", "c"] : List String).length ∧
      ntypeCount t .alphaOver = (["a", "b", "c"] : List String).length - 1 ∧
      t = expectedTree ["a", "b", "c"] 1024 :=
  compose_node_graph_structure ["a", "b", "c"] 1024 (by decide)

/-! ### Path arithmetic (`os.path` on POSIX), embedded over `List Char`

`set_output_path` and the per-view file naming use `os.path.join`,
`os.path.dirname`, `os.path.basename` and `os.path.splitext`.  These are
modelled from posixpath's documented behaviour with separator `/`. -/

/-- `posixpath.join a b` for a single right operand: take `b` alone if it is
absolute; otherwise append, inserting `/` unless `a` is empty or already ends
in `/`. -/
def joinCh (a b : List Char) : List Char :=
  if b.head? = some '/' then b
  else if a = [] ∨ a.getLast? = some '/' then a ++ b
  else a ++ '/' :: b

def pathJoin (a b : String) : String := ⟨joinCh a.data b.data⟩

/-- `posixpath.basename`: everything after the last `/`. -/
def basenameCh (l : List Char) : List Char :=
  (l.reverse.takeWhile (fun c => c ≠ '/')).reverse

def pathBasename (s : String) : String := ⟨basenameCh s.data⟩

/-- `posixpath.dirname`: everything up to and including the last `/`, then
trailing slashes stripped unless the head is all slashes. -/
def dirnameCh (l : List Char) : List Char :=
  let head := (l.reverse.dropWhile (fun c => c ≠ '/')).reverse
  if head = [] then []
  else if head.all (fun c => c = '/') then head
  else (head.reverse.dropWhile (fun c => c = '/')).reverse

def pathDirname (s : String) : String := ⟨dirnameCh s.data⟩

/-- `posixpath.splitext` on a basename: split at the last dot, except that the
leading dots of the name never start an extension. -/
def splitextCh (l : List Char) : List Char × List Char :=
  let lead := l.takeWhile (fun c => c = '.')
  let rest := l.drop lead.length
  let extLen := (rest.reverse.takeWhile (fun c => c ≠ '.')).length
  if extLen = rest.length then (l, [])
  else (l.take (l.length - (extLen + 1)), l.drop (l.length - (extLen + 1)))

def splitext (s : String) : String × String :=
  ((⟨(splitextCh s.data).1⟩ : String), (⟨(splitextCh s.data).2⟩ : String))

lemma takeWhile_append_all {α : Type} {p : α → Bool} :
    ∀ (l₁ l₂ : List α), (∀ x ∈ l₁, p x) → (l₁ ++ l₂).takeWhile p = l₁ ++ l₂.takeWhile p
  | [], l₂, _ => by simp
  | a :: l₁, l₂, h => by
      have ha : p a := h a (by simp)
      simp only [List.cons_append, List.takeWhile_cons_of_pos ha]
      rw [takeWhile_append_all l₁ l₂ (fun x hx => h x (by simp [hx]))]

lemma dropWhile_append_all {α : Type} {p : α → Bool} :
    ∀ (l₁ l₂ : List α), (∀ x ∈ l₁, p x) → (l₁ ++ l₂).dropWhile p = l₂.dropWhile p
  | [], l₂, _ => by simp
  | a :: l₁, l₂, h => by
      have ha : p a := h a (by simp)
      simp only [List.cons_append, List.dropWhile_cons_of_pos ha]
      exact dropWhile_append_all l₁ l₂ (fun x hx => h x (by simp [hx]))

lemma head_dropWhile_not {α : Type} {p : α → Bool} :
    ∀ (l : List α) (c : α), (l.dropWhile p).head? = some c → p c = false
  | [], c, h => by simp [List.dropWhile] at h
  | a :: l, c, h => by
      by_cases ha : p a
      · rw [List.dropWhile_cons_of_pos ha] at h
        exact head_dropWhile_not l c h
      · rw [List.dropWhile_cons_of_neg ha] at h
        simp at h
        subst h
        exact Bool.eq_false_iff.mpr ha

/-- Appending a slash-free component never changes the basename. -/
lemma basenameCh_join (a b : List Char) (hb : ∀ c ∈ b, c ≠ '/') :
    basenameCh (joinCh a b) = b := by
  have hball : ∀ x ∈ b.reverse, (fun c => decide (c ≠ '/')) x = true := by
    intro x hx
    simp [hb x (List.mem_reverse.mp hx)]
  have hbhead : ¬ b.head? = some '/' := by
    intro h
    cases b with
    | nil => simp at h
    | cons c cs =>
        simp at h
        exact hb c (by simp) h
  rw [joinCh, if_neg hbhead]
  by_cases ha : a = [] ∨ a.getLast? = some '/'
  · rw [if_pos ha]
    rcases ha with ha | ha
    · subst ha
      simp only [List.nil_append, basenameCh]
      rw [List.takeWhile_eq_self_iff.mpr hball, List.reverse_reverse]
    · rw [basenameCh, List.reverse_append,
        takeWhile_append_all _ _ hball]
      have : a.reverse.takeWhile (fun c => decide (c ≠ '/')) = [] := by
        cases hrev : a.reverse with
        | nil => simp
        | cons x xs =>
            have : a.getLast? = some x := by
              rw [← List.head?_reverse, hrev]
              rfl
            have hx : x = '/' := by
              rw [ha] at this
              exact (Option.some_inj.mp this).symm
            simp [List.takeWhile_cons, hx]
      rw [this, List.append_nil, List.reverse_reverse]
  · rw [if_neg ha, basenameCh]
    have : (a ++ '/' :: b).reverse = b.reverse ++ '/' :: a.reverse := by
      simp
    rw [this, takeWhile_append_all _ _ hball]
    simp [List.takeWhile_cons]

/-- A directory string is "sane" when it is empty, all slashes, or does not
end in a slash.  `pathDirname` only ever produces sane strings. -/
def saneDirCh (a : List Char) : Prop :=
  a.all (fun c => c = '/') ∨ a.getLast? ≠ some '/'

lemma dirnameCh_sane (l : List Char) : saneDirCh (dirnameCh l) := by
  rw [dirnameCh]
  set head := (l.reverse.dropWhile (fun c => c ≠ '/')).reverse with hhead
  by_cases h0 : head = []
  · simp [h0, saneDirCh]
  · rw [if_neg h0]
    by_cases hall : head.all (fun c => c = '/')
    · rw [if_pos hall]
      exact Or.inl hall
    · rw [if_neg hall]
      right
      intro hlast
      rw [List.getLast?_reverse] at hlast
      have := head_dropWhile_not (head.reverse) '/' hlast
      simp at this


/-- Joining a nonempty slash-free component onto a sane directory string and
taking `dirname` gives the directory back. -/
lemma dirnameCh_join (a b : List Char) (hb : b ≠ []) (hb2 : ∀ c ∈ b, c ≠ '/')
    (ha : saneDirCh a) : dirnameCh (joinCh a b) = a := by
  have hball : ∀ x ∈ b.reverse, (fun c => decide (c ≠ '/')) x = true := by
    intro x hx
    simp [hb2 x (List.mem_reverse.mp hx)]
  have hbhead : ¬ b.head? = some '/' := by
    intro h
    cases b with
    | nil => simp at h
    | cons c cs =>
        simp at h
        exact hb2 c (by simp) h
  by_cases ha0 : a = []
  · subst ha0
    rw [joinCh, if_neg hbhead, if_pos (Or.inl rfl), List.nil_append, dirnameCh]
    have hdrop2 : b.reverse.dropWhile (fun c => !decide (c = '/')) = [] :=
      List.dropWhile_eq_nil_iff.mpr
        (by intro x hx; simpa using hb2 x (List.mem_reverse.mp hx))
    simp [hdrop2]
  · obtain ⟨c, t, hrev⟩ : ∃ c t, a.reverse = c :: t := by
      cases harev : a.reverse with
      | nil => exact absurd (by simpa using congrArg List.reverse harev) ha0
      | cons c t => exact ⟨c, t, rfl⟩
    have hlast : a.getLast? = some c := by
      rw [← List.head?_reverse, hrev]
      rfl
    by_cases hall : a.all (fun ch => ch = '/')
    · have hc : c = '/' := by
        have hcmem : c ∈ a := by
          rw [← List.mem_reverse, hrev]
          simp
        simpa using List.all_eq_true.mp hall c hcmem
      rw [joinCh, if_neg hbhead, if_pos (Or.inr (by rw [hlast, hc])), dirnameCh]
      have hrevab : (a ++ b).reverse = b.reverse ++ a.reverse := by simp
      rw [hrevab, dropWhile_append_all _ _ hball, hrev,
        List.dropWhile_cons_of_neg (by simp [hc]), ← hrev]
      simp only [List.reverse_reverse]
      rw [if_neg ha0, if_pos hall]
    · have hlast' : ¬ a.getLast? = some '/' := by
        rcases ha with h | h
        · exact absurd h hall
        · exact h
      rw [joinCh, if_neg hbhead, if_neg (by
        intro h
        rcases h with h | h
        · exact ha0 h
        · exact hlast' h), dirnameCh]
      have hrevab : (a ++ '/' :: b).reverse = b.reverse ++ '/' :: a.reverse := by simp
      rw [hrevab, dropWhile_append_all _ _ hball,
        List.dropWhile_cons_of_neg (by simp)]
      simp only [List.reverse_cons, List.reverse_reverse]
      have hne : ¬ (a ++ ['/'] : List Char) = [] := by simp
      rw [if_neg hne]
      have hnall : ¬ (a ++ ['/'] : List Char).all (fun ch => ch = '/') := by
        intro h
        simp only [List.all_append, Bool.and_eq_true] at h
        exact hall h.1
      rw [if_neg hnall]
      have hrev2 : (a ++ ['/'] : List Char).reverse = '/' :: a.reverse := by simp
      rw [hrev2, List.dropWhile_cons_of_pos (by simp), hrev,
        List.dropWhile_cons_of_neg (by simp [show c ≠ '/' from fun hcc =>
          hlast' (by rw [hlast, hcc])]), ← hrev]
      simp

/-- String-level versions. -/
lemma pathBasename_pathJoin (A f : String) (hf : ∀ c ∈ f.data, c ≠ '/') :
    pathBasename (pathJoin A f) = f := by
  show (⟨basenameCh (joinCh A.data f.data)⟩ : String) = f
  rw [basenameCh_join _ _ hf]

lemma pathDirname_pathJoin (A f : String) (hf1 : f.data ≠ [])
    (hf2 : ∀ c ∈ f.data, c ≠ '/') (hA : saneDirCh A.data) :
    pathDirname (pathJoin A f) = A := by
  show (⟨dirnameCh (joinCh A.data f.data)⟩ : String) = A
  rw [dirnameCh_join _ _ hf1 hf2 hA]

lemma pathDirname_sane (s : String) : saneDirCh (pathDirname s).data :=
  dirnameCh_sane s.data

/-! ### The six view directions (lines 138-145) and per-view camera setup
(lines 165-169).  Rotations are Euler XYZ triples in radians; `math.pi` is
embedded as the real number `π`. -/

noncomputable def directions : List (String × (ℝ × ℝ × ℝ)) :=
  [("X+", (Real.pi / 2, 0, -(Real.pi / 2))),
   ("X-", (Real.pi / 2, 0, Real.pi / 2)),
   ("Y+", (Real.pi, 0, 0)),
   ("Y-", (0, 0, 0)),
   ("Z+", (Real.pi / 2, 0, 0)),
   ("Z-", (Real.pi / 2, 0, Real.pi))]

/-- The direction names, in list order. -/
def directionNames : List String := ["X+", "X-", "Y+", "Y-", "Z+", "Z-"]

lemma directions_names : directions.map Prod.fst = directionNames := rfl

/-- The camera fields the per-view setup writes. -/
structure CameraState where
  location : ℝ × ℝ × ℝ
  rotationMode : String
  rotationEuler : ℝ × ℝ × ℝ
  projType : String
  angle : ℝ

/-- Lines 165-169: `cam_obj.location = camera_location`,
`cam_obj.rotation_mode = 'XYZ'`, `cam_obj.rotation_euler = view["rot"]`,
`cam_obj.data.type = 'PERSP'`, `cam_obj.data.angle = math.pi / 2.0`. -/
noncomputable def configureViewCamera (rot : ℝ × ℝ × ℝ) (cam : CameraState) :
    CameraState :=
  { cam with
    location := camera_location
    rotationMode := "XYZ"
    rotationEuler := rot
    projType := "PERSP"
    angle := Real.pi / 2 }

/-! ### `set_output_path` (lines 59-80)

`bpy.path.abspath` is an external oracle (a `String → String` parameter), as
are the `os.path.isdir` test and the outcome of `os.makedirs`.  The `except
OSError` clause is the `.osError` branch: it is caught, so the function
returns `Except.ok` on every input. -/

inductive MkdirsResult
  | ok
  | osError (msg : String)
  deriving DecidableEq, Repr

def makedirs (mk : MkdirsResult) : Except String Unit :=
  match mk with
  | .ok => .ok ()
  | .osError m => .error m

def set_output_path (abspath : String → String) (isdir : Bool)
    (mk : MkdirsResult) (dir_path filename : String) : Except String String :=
  let abs_dir_path := abspath dir_path
  let abs_dir_path :=
    if isdir then abs_dir_path
    else
      match makedirs mk with
      | .ok _ => abs_dir_path
      | .error _ => abspath "//"
  Except.ok (pathJoin abs_dir_path filename)

/-! ### The linear main body as an action trace (lines 84-283)

`render_horizontal_strip` mutates `scene.render` (resolution, filepath) and
`scene.camera` and calls `bpy.ops.render.render(write_still=True)`.  We record
the sequence of those operations; a `RenderEvent` snapshots the settings in
force at each render call. -/

structure RenderSettings where
  resX : Nat
  resY : Nat
  filepath : String
  cameraName : String
  deriving DecidableEq, Repr

structure RenderEvent where
  resX : Nat
  resY : Nat
  filepath : String
  cameraName : String
  deriving DecidableEq, Repr

inductive Action
  | setResX (n : Nat)
  | setResY (n : Nat)
  | setFilepath (p : String)
  | setCamera (name : String)
  | render
  deriving DecidableEq, Repr

def applyAction (s : RenderSettings) : Action → RenderSettings
  | .setResX n => { s with resX := n }
  | .setResY n => { s with resY := n }
  | .setFilepath p => { s with filepath := p }
  | .setCamera c => { s with cameraName := c }
  | .render => s

def runActions : List Action → RenderSettings → List RenderEvent
  | [], _ => []
  | a :: rest, s =>
      match a with
      | .render => ⟨s.resX, s.resY, s.filepath, s.cameraName⟩ :: runActions rest s
      | _ => runActions rest (applyAction s a)

/-- Line 182: the per-view filename is the text view_ followed by the
direction name and the output extension. -/
def viewFilename (ext d : String) : String := "view_" ++ d ++ ext

/-- One iteration of the view loop (lines 151-192), restricted to the traced
fields: select/create camera `Camera_<dir>`, set the per-view output path
(line 183-184), set the tile resolution (lines 188-189), render (line 192). -/
def viewActions (outDir ext d : String) : List Action :=
  [.setCamera ("Camera_" ++ d),
   .setFilepath (pathJoin outDir (viewFilename ext d)),
   .setResX tile_size, .setResY tile_size,
   .render]

/-- The render tail of `compose_with_nodes` (lines 276-279). -/
def composeActions (width height : Nat) (output_path : String) : List Action :=
  [.setResX width, .setResY height, .setFilepath output_path, .render]

/-- The main body's operations on the traced state, in source order:
`set_render_settings` (line 116), `set_output_path` (line 117), the six-view
loop (lines 151-220), the resolution restore (lines 224-225), and the
compositing render issued by `compose_with_nodes(temp_files, output_filepath,
resolution_x, resolution_y, tile_size)` (line 283). -/
def scriptActions (output_filepath : String) : List Action :=
  [.setResX resolution_x, .setResY resolution_y,
   .setFilepath output_filepath] ++
  (directionNames.map
      (viewActions (pathDirname output_filepath)
        (splitext (pathBasename output_filepath)).2)).flatten ++
  [.setResX resolution_x, .setResY resolution_y] ++
  composeActions resolution_x resolution_y output_filepath

/-- The files written by the renderer during a successful run (each render is
invoked with `write_still=True` on the current `scene.render.filepath`). -/
def writtenFiles (out : String) (s : RenderSettings) : List String :=
  (runActions (scriptActions out) s).map (fun e => e.filepath)

/-- C2: `num_tiles = resolution_x // tile_size = 6`, the strip width equals
`num_tiles * tile_size = resolution_x = 6144`, and the final (compositing)
render of a successful run — the last render event of the trace — is issued at
exactly that restored resolution, writing the configured output path. -/
theorem strip_width (out : String) (s : RenderSettings) :
    num_tiles = 6 ∧
    num_tiles * tile_size = resolution_x ∧
    (runActions (scriptActions out) s).getLast? =
      some ⟨num_tiles * tile_size, resolution_y, out, "Camera_Z-"⟩ :=
  ⟨rfl, rfl, rfl⟩

/-- C4: a successful run performs exactly seven renderer invocations: one per
direction of the `directions` list (in list order, with camera `Camera_<dir>`
and tile resolution), then exactly one compositing render. -/
theorem renderer_invocation_sequence (out : String) (s : RenderSettings) :
    directions.map Prod.fst = directionNames ∧
    runActions (scriptActions out) s =
      directionNames.map (fun d =>
        ⟨tile_size, tile_size,
         pathJoin (pathDirname out) (viewFilename (splitext (pathBasename out)).2 d),
         "Camera_" ++ d⟩) ++
      [⟨resolution_x, resolution_y, out, "Camera_Z-"⟩] ∧
    (runActions (scriptActions out) s).length = 7 :=
  ⟨rfl, rfl, rfl⟩

/-- C5: with the configured filename `horizontal_strip.png`, a successful run
writes exactly the six tile files `view_X+.png` … `view_Z-.png` (extension
taken from the output filename), each into the directory of the final output
path, and then the final composited strip at the configured output path.
`A` stands for the absolute output directory chosen by `set_output_path`. -/
theorem output_file_layout (A : String) (s : RenderSettings) :
    writtenFiles (pathJoin A output_filename) s =
      (["view_X+.png", "view_X-.png", "view_Y+.png", "view_Y-.png",
        "view_Z+.png", "view_Z-.png"].map
        (fun f => pathJoin (pathDirname (pathJoin A output_filename)) f)) ++
      [pathJoin A output_filename] ∧
    (∀ p ∈ writtenFiles (pathJoin A output_filename) s,
      pathDirname p = pathDirname (pathJoin A output_filename)) := by
  have hext : (splitext (pathBasename (pathJoin A output_filename))).2 = ".png" := by
    rw [pathBasename_pathJoin _ _ (by decide)]
    rfl
  have hrun : writtenFiles (pathJoin A output_filename) s =
      directionNames.map (fun d =>
        pathJoin (pathDirname (pathJoin A output_filename))
          (viewFilename (splitext (pathBasename (pathJoin A output_filename))).2 d)) ++
      [pathJoin A output_filename] := rfl
  rw [hrun, hext]
  refine ⟨rfl, ?_⟩
  intro p hp
  simp only [directionNames, List.map_cons, List.map_nil, List.mem_append,
    List.mem_cons, List.not_mem_nil, or_false] at hp
  rcases hp with (rfl | rfl | rfl | rfl | rfl | rfl) | rfl
  all_goals
    first
      | exact pathDirname_pathJoin _ _ (by decide) (by decide) (pathDirname_sane _)
      | rfl

/-- Witness for C5 at a concrete output directory. -/
theorem output_file_layout_witness :
    writtenFiles (pathJoin "/base" output_filename) ⟨0, 0, "", ""⟩ =
      (["view_X+.png", "view_X-.png", "view_Y+.png", "view_Y-.png",
        "view_Z+.png", "view_Z-.png"].map
        (fun f => pathJoin (pathDirname (pathJoin "/base" output_filename)) f)) ++
      [pathJoin "/base" output_filename] ∧
    (∀ p ∈ writtenFiles (pathJoin "/base" output_filename) ⟨0, 0, "", ""⟩,
      pathDirname p = pathDirname (pathJoin "/base" output_filename)) :=
  output_file_layout "/base" ⟨0, 0, "", ""⟩

/-- C6: the per-view camera setup puts the camera at the origin, perspective
projection, a field of view of exactly π/2 radians, rotation mode XYZ, and the
view's Euler triple from the `directions` list. -/
theorem view_camera_configuration (cam : CameraState) (d : String × (ℝ × ℝ × ℝ))
    (hd : d ∈ directions) :
    (configureViewCamera d.2 cam).location = (0, 0, 0) ∧
    (configureViewCamera d.2 cam).projType = "PERSP" ∧
    (configureViewCamera d.2 cam).angle = Real.pi / 2 ∧
    (configureViewCamera d.2 cam).rotationMode = "XYZ" ∧
    (configureViewCamera d.2 cam).rotationEuler = d.2 :=
  ⟨rfl, rfl, rfl, rfl, rfl⟩

/-- Witness for C6 at the first view of the list. -/
theorem view_camera_configuration_witness :
    (configureViewCamera ("X+", ((Real.pi / 2 : ℝ), (0 : ℝ), -(Real.pi / 2))).2
        ⟨(1, 2, 3), "Q", (1, 1, 1), "ORTHO", 0⟩).location = (0, 0, 0) ∧
    (configureViewCamera ("X+", ((Real.pi / 2 : ℝ), (0 : ℝ), -(Real.pi / 2))).2
        ⟨(1, 2, 3), "Q", (1, 1, 1), "ORTHO", 0⟩).projType = "PERSP" ∧
    (configureViewCamera ("X+", ((Real.pi / 2 : ℝ), (0 : ℝ), -(Real.pi / 2))).2
        ⟨(1, 2, 3), "Q", (1, 1, 1), "ORTHO", 0⟩).angle = Real.pi / 2 ∧
    (configureViewCamera ("X+", ((Real.pi / 2 : ℝ), (0 : ℝ), -(Real.pi / 2))).2
        ⟨(1, 2, 3), "Q", (1, 1, 1), "ORTHO", 0⟩).rotationMode = "XYZ" ∧
    (configureViewCamera ("X+", ((Real.pi / 2 : ℝ), (0 : ℝ), -(Real.pi / 2))).2
        ⟨(1, 2, 3), "Q", (1, 1, 1), "ORTHO", 0⟩).rotationEuler =
      ("X+", ((Real.pi / 2 : ℝ), (0 : ℝ), -(Real.pi / 2))).2 :=
  view_camera_configuration ⟨(1, 2, 3), "Q", (1, 1, 1), "ORTHO", 0⟩
    ("X+", (Real.pi / 2, 0, -(Real.pi / 2))) (by simp [directions])

/-- C7: when the output directory does not exist and `os.makedirs` fails with
an `OSError`, `set_output_path` catches the error (it returns `Except.ok`,
never propagating), falls back to the project base directory `abspath "//"`,
and returns that base directory joined with the configured filename. -/
theorem set_output_path_fallback (abspath : String → String)
    (m dir_path filename : String) :
    set_output_path abspath false (.osError m) dir_path filename =
      Except.ok (pathJoin (abspath "//") filename) := rfl

/-! ### Top-level error handling (lines 94, 323-334)

The whole main body sits in `try: … except Exception as e: … finally: …`.
The body contains no `raise` statement and no `sys.exit`, so every exception
it can produce is an instance of `Exception` (raised by the host APIs it
calls); `PyException` models exactly those.  A run of the body is summarised
by the lines it printed and an optional exception that aborted it. -/

structure PyException where
  typeName : String
  message : String
  deriving DecidableEq, Repr

/-- `render_horizontal_strip`'s outer control flow: the except-clause prints
(lines 323-330), then the finally-clause print (line 334).  The result pairs
everything printed with the exception (if any) that propagates out of the
function — the except clause catches every `PyException`, so that component
is always `none`. -/
def render_horizontal_strip_outcome (bodyPrints : List String)
    (exc : Option PyException) : List String × Option PyException :=
  match exc with
  | none => (bodyPrints ++ ["Script finished."], none)
  | some e =>
      (bodyPrints ++
        ["--- An error occurred during script execution ---",
         "Error Type: " ++ e.typeName,
         "Error Message: " ++ e.message,
         "Traceback:",
         "--------------------------------------------------"] ++
        ["Script finished."], none)

/-! ### Camera cleanup (lines 153-164, 218-220, 301-310)

Scene objects are tracked by camera name (names are unique in a Blender
scene).  Each view looks for an existing `Camera_<dir>`; only a camera the
loop itself created is recorded in `temp_cameras`, and the cleanup deletes
exactly the cameras in `temp_cameras`. -/

structure CamLoopState where
  sceneCams : List String
  tempCams : List String
  usedCams : List String
  deriving DecidableEq, Repr

/-- One iteration of the view loop, restricted to camera bookkeeping: reuse a
scene camera named `Camera_<dir>` if present, otherwise create it and mark it
temporary; either way it becomes the view's render camera. -/
def processViewCamera (s : CamLoopState) (d : String) : CamLoopState :=
  let cam_name := "Camera_" ++ d
  if cam_name ∈ s.sceneCams then
    { s with usedCams := s.usedCams ++ [cam_name] }
  else
    { sceneCams := s.sceneCams ++ [cam_name],
      tempCams := s.tempCams ++ [cam_name],
      usedCams := s.usedCams ++ [cam_name] }

def runViewCameras (views : List String) (initial : List String) : CamLoopState :=
  views.foldl processViewCamera ⟨initial, [], []⟩

/-- Lines 301-310: remove exactly the cameras recorded in `temp_cameras`. -/
def cleanupCameras (s : CamLoopState) : List String :=
  s.sceneCams.filter (fun c => !(decide (c ∈ s.tempCams)))

/-! ### Image-datablock cleanup (lines 312-319) -/

structure ImageData where
  name : String
  filepath : String
  deriving DecidableEq, Repr

/-- `used_filepaths = set([bpy.path.abspath(f) for f in temp_files] +
[bpy.path.abspath(output_filepath)])` (line 313). -/
def used_filepaths (abspath : String → String) (temp_files : List String)
    (output_filepath : String) : List String :=
  temp_files.map abspath ++ [abspath output_filepath]

/-- Line 316's removal test: `img.filepath and bpy.path.abspath(img.filepath)
not in used_filepaths` (a Python string is truthy iff non-empty). -/
def imageRemoved (abspath : String → String) (used : List String)
    (img : ImageData) : Bool :=
  img.filepath != "" && !(decide (abspath img.filepath ∈ used))

/-- The image list remaining after the cleanup loop (lines 314-319). -/
def cleanupImages (abspath : String → String) (used : List String)
    (imgs : List ImageData) : List ImageData :=
  imgs.filter (fun img => !(imageRemoved abspath used img))

lemma runViewCameras_preserve (views : List String) :
    ∀ (s : CamLoopState) (c : String), c ∈ s.sceneCams → c ∉ s.tempCams →
      c ∈ (views.foldl processViewCamera s).sceneCams ∧
      c ∉ (views.foldl processViewCamera s).tempCams := by
  induction views with
  | nil => intro s c h1 h2; exact ⟨h1, h2⟩
  | cons d views ih =>
      intro s c h1 h2
      rw [List.foldl_cons]
      apply ih
      · rw [processViewCamera]
        by_cases hmem : ("Camera_" ++ d) ∈ s.sceneCams
        · simpa [hmem] using h1
        · simp only [if_neg hmem]
          exact List.mem_append.mpr (Or.inl h1)
      · rw [processViewCamera]
        by_cases hmem : ("Camera_" ++ d) ∈ s.sceneCams
        · simpa [hmem] using h2
        · simp only [if_neg hmem]
          intro hmemc
          rcases List.mem_append.mp hmemc with hc | hc
          · exact h2 hc
          · exact hmem ((List.mem_singleton.mp hc) ▸ h1)

lemma runViewCameras_used (views : List String) :
    ∀ (s : CamLoopState),
      (views.foldl processViewCamera s).usedCams =
        s.usedCams ++ views.map (fun d => "Camera_" ++ d) := by
  induction views with
  | nil => intro s; simp
  | cons d views ih =>
      intro s
      rw [List.foldl_cons, ih, processViewCamera]
      by_cases hmem : ("Camera_" ++ d) ∈ s.sceneCams <;> simp [hmem]

/-- C8: nothing escapes `render_horizontal_strip`'s main body: whatever the
body printed and whether or not it raised, no exception propagates out, the
last line printed is the finally-clause's `"Script finished."`, and when the
body raised, the handler reported the exception's type name and message. -/
theorem main_error_handling (bodyPrints : List String) (exc : Option PyException) :
    (render_horizontal_strip_outcome bodyPrints exc).2 = none ∧
    (render_horizontal_strip_outcome bodyPrints exc).1.getLast? =
      some "Script finished." ∧
    (∀ e, exc = some e →
      ("Error Type: " ++ e.typeName) ∈
          (render_horizontal_strip_outcome bodyPrints exc).1 ∧
        ("Error Message: " ++ e.message) ∈
          (render_horizontal_strip_outcome bodyPrints exc).1) := by
  rcases exc with _ | e
  · refine ⟨rfl, ?_, ?_⟩
    · simp [render_horizontal_strip_outcome]
    · intro e h
      cases h
  · refine ⟨rfl, ?_, ?_⟩
    · simp [render_horizontal_strip_outcome]
    · intro e2 h
      have he : e2 = e := by
        injection h with h
        exact h.symm
      subst he
      constructor <;> simp [render_horizontal_strip_outcome]

/-- Witness for C8 on a raising body. -/
theorem main_error_handling_witness :
    (render_horizontal_strip_outcome ["setup done"]
        (some ⟨"RuntimeError", "boom"⟩)).2 = none ∧
    (render_horizontal_strip_outcome ["setup done"]
        (some ⟨"RuntimeError", "boom"⟩)).1.getLast? = some "Script finished." ∧
    (∀ e, (some (⟨"RuntimeError", "boom"⟩ : PyException)) = some e →
      ("Error Type: " ++ e.typeName) ∈
          (render_horizontal_strip_outcome ["setup done"]
            (some ⟨"RuntimeError", "boom"⟩)).1 ∧
        ("Error Message: " ++ e.message) ∈
          (render_horizontal_strip_outcome ["setup done"]
            (some ⟨"RuntimeError", "boom"⟩)).1) :=
  main_error_handling ["setup done"] (some ⟨"RuntimeError", "boom"⟩)

/-- C9: a camera named `Camera_<dir>` that already existed in the scene is
never recorded in `temp_cameras` and survives the cleanup; every camera the
cleanup removes is one recorded in `temp_cameras`; and each view's camera
(pre-existing or created) is used for its render. -/
theorem camera_cleanup_scope (views : List String) (initial : List String)
    (c : String) (hc : c ∈ initial) :
    c ∉ (runViewCameras views initial).tempCams ∧
    c ∈ cleanupCameras (runViewCameras views initial) ∧
    (∀ x ∈ (runViewCameras views initial).sceneCams,
       x ∉ cleanupCameras (runViewCameras views initial) →
       x ∈ (runViewCameras views initial).tempCams) ∧
    (∀ d ∈ views, ("Camera_" ++ d) ∈ (runViewCameras views initial).usedCams) := by
  simp only [runViewCameras]
  have hpres := runViewCameras_preserve views ⟨initial, [], []⟩ c hc
    (by simp)
  refine ⟨hpres.2, ?_, ?_, ?_⟩
  · rw [cleanupCameras]
    refine List.mem_filter.mpr ⟨hpres.1, ?_⟩
    simp [hpres.2]
  · intro x hx hxn
    by_contra hxt
    exact hxn (List.mem_filter.mpr ⟨hx, by simp [hxt]⟩)
  · intro d hd
    rw [runViewCameras_used views ⟨initial, [], []⟩]
    simpa using List.mem_map.mpr ⟨d, hd, rfl⟩

/-- Witness for C9: a pre-existing `Camera_X+` over the actual view list. -/
theorem camera_cleanup_scope_witness :
    "Camera_X+" ∉ (runViewCameras directionNames ["Camera_X+"]).tempCams ∧
    "Camera_X+" ∈ cleanupCameras (runViewCameras directionNames ["Camera_X+"]) ∧
    (∀ x ∈ (runViewCameras directionNames ["Camera_X+"]).sceneCams,
       x ∉ cleanupCameras (runViewCameras directionNames ["Camera_X+"]) →
       x ∈ (runViewCameras directionNames ["Camera_X+"]).tempCams) ∧
    (∀ d ∈ directionNames,
       ("Camera_" ++ d) ∈ (runViewCameras directionNames ["Camera_X+"]).usedCams) :=
  camera_cleanup_scope directionNames ["Camera_X+"] "Camera_X+" (by decide)

/-- C10: the image cleanup keeps an image exactly when its filepath is empty
or its absolute path is one of the used paths (the six tile files and the
final output); equivalently it removes only images with a non-empty filepath
outside that set. -/
theorem image_cleanup_scope (abspath : String → String)
    (temp_files : List String) (output_filepath : String)
    (imgs : List ImageData) (img : ImageData) (h : img ∈ imgs) :
    img ∈ cleanupImages abspath
        (used_filepaths abspath temp_files output_filepath) imgs ↔
      img.filepath = "" ∨
        abspath img.filepath ∈ used_filepaths abspath temp_files output_filepath := by
  rw [cleanupImages, List.mem_filter]
  simp [h, imageRemoved]

/-- Witness for C10: an image backed by a tile path is preserved. -/
theorem image_cleanup_scope_witness :
    (⟨"img1", "t1"⟩ : ImageData) ∈ cleanupImages (fun s => s)
        (used_filepaths (fun s => s) ["t1"] "o") [⟨"img1", "t1"⟩] ↔
      ("t1" : String) = "" ∨
        (fun s : String => s) "t1" ∈ used_filepaths (fun s => s) ["t1"] "o" :=
  image_cleanup_scope (fun s => s) ["t1"] "o" [⟨"img1", "t1"⟩] ⟨"img1", "t1"⟩
    (by decide)

end Skydome
